import Mathlib

/-!
A verification development for the camera-based attendance pipeline
(`backend/` of the face_attendance repository).  The Python modules
`face_processor.py`, `liveness_detector.py`, `polling_attendance_service.py`,
`camera_monitoring_service.py`, `config.py` and the attendance part of
`main.py` are shallowly embedded below: pure functions become Lean functions,
stateful code becomes explicit state passing, machine floats are idealised as
real numbers, and fallible code returns `Except`/`Option`.
-/

namespace FaceAttendance

/-! ## Configuration (`config.py`, class `Settings`) -/

/-- Detection models accepted by `face_recognition.face_locations`:
`"hog"` (fast/approximate) and `"cnn"` (slow/accurate). -/
inductive DetectModel where
  | hog
  | cnn
deriving DecidableEq, Repr

/-- Embedding of the `Settings` object of `config.py` (the fields the
attendance pipeline reads). -/
structure Settings where
  FACE_RECOGNITION_TOLERANCE : ℝ
  FACE_MATCH_THRESHOLD : ℝ
  ENABLE_LIVENESS : Bool
  LIVENESS_THRESHOLD : ℝ
  FACE_DETECTION_MODEL : DetectModel
  MAX_FACES_PER_IMAGE : ℕ
  ATTENDANCE_COOLDOWN_MINUTES : ℕ
  WORK_START_HOUR : ℕ
  WORK_START_MIN : ℕ
  LATE_GRACE_PERIOD_MINUTES : ℕ
  HALF_DAY_CUTOFF_HOUR : ℕ
  HALF_DAY_CUTOFF_MIN : ℕ

/-- The default configuration values of `config.py` (no environment
overrides). -/
noncomputable def defaultSettings : Settings where
  FACE_RECOGNITION_TOLERANCE := 0.6
  FACE_MATCH_THRESHOLD := 0.6
  ENABLE_LIVENESS := true
  LIVENESS_THRESHOLD := 0.75
  FACE_DETECTION_MODEL := .hog
  MAX_FACES_PER_IMAGE := 10
  ATTENDANCE_COOLDOWN_MINUTES := 5
  WORK_START_HOUR := 8
  WORK_START_MIN := 0
  LATE_GRACE_PERIOD_MINUTES := 15
  HALF_DAY_CUTOFF_HOUR := 12
  HALF_DAY_CUTOFF_MIN := 0

/-! ## The matcher (`face_processor.py`, `FaceProcessor.match_face`)

`face_recognition.face_distance` returns the Euclidean norm of the
difference of the two embedding vectors; embeddings are modelled as lists
of reals. -/

/-- Sum of squared coordinate differences of two embedding vectors. -/
def sqDist (a b : List ℝ) : ℝ :=
  (List.zipWith (fun x y => (x - y) ^ 2) a b).sum

/-- Model of `face_recognition.face_distance` for a single catalog entry:
the Euclidean distance between the stored embedding and the probe. -/
noncomputable def faceDistance (stored probe : List ℝ) : ℝ :=
  Real.sqrt (sqDist stored probe)

/-- The linear scan of `match_face`: runs over the catalog keeping the
entry of strictly smallest distance seen so far (`best_distance` starts at
`inf`, so the accumulator is `none` before the first entry). -/
noncomputable def scanBest (probe : List ℝ) :
    List (String × List ℝ) → Option (String × ℝ) → Option (String × ℝ)
  | [], acc => acc
  | (eid, emb) :: rest, none =>
      scanBest probe rest (some (eid, faceDistance emb probe))
  | (eid, emb) :: rest, some (bid, bd) =>
      if faceDistance emb probe < bd then
        scanBest probe rest (some (eid, faceDistance emb probe))
      else scanBest probe rest (some (bid, bd))

/-- Model of `FaceProcessor.match_face`: returns `some (employee_id, 1 - distance)`
when the best (minimum-distance) catalog entry is within `tolerance`,
otherwise `none`; an empty catalog yields `none` immediately. -/
noncomputable def match_face (tolerance : ℝ) (probe : List ℝ)
    (catalog : List (String × List ℝ)) : Option (String × ℝ) :=
  match scanBest probe catalog none with
  | none => none
  | some (bid, bd) => if bd ≤ tolerance then some (bid, 1 - bd) else none

theorem sqDist_self (v : List ℝ) : sqDist v v = 0 := by
  induction v with
  | nil => simp [sqDist]
  | cons x xs ih => simp only [sqDist, List.zipWith] at ih ⊢; simp [ih]

theorem faceDistance_self (v : List ℝ) : faceDistance v v = 0 := by
  simp [faceDistance, sqDist_self]

theorem faceDistance_nonneg (a b : List ℝ) : 0 ≤ faceDistance a b :=
  Real.sqrt_nonneg _

/-- Characterisation of the linear scan: starting from accumulator
`(bid, bd)` it returns the running minimum, and the winning entry is the
first one that strictly improved on everything before it. -/
theorem scanBest_acc_spec (probe : List ℝ) (l : List (String × List ℝ)) :
    ∀ (bid : String) (bd : ℝ), ∃ rid rd,
      scanBest probe l (some (bid, bd)) = some (rid, rd) ∧
      rd ≤ bd ∧ (∀ q ∈ l, rd ≤ faceDistance q.2 probe) ∧
      ((rid = bid ∧ rd = bd) ∨
        ∃ l1 q l2, l = l1 ++ q :: l2 ∧ rid = q.1 ∧
          rd = faceDistance q.2 probe ∧ rd < bd ∧
          ∀ p ∈ l1, rd < faceDistance p.2 probe) := by
  induction l with
  | nil =>
    intro bid bd
    exact ⟨bid, bd, rfl, le_refl _, by simp, Or.inl ⟨rfl, rfl⟩⟩
  | cons a rest ih =>
    intro bid bd
    obtain ⟨eid, emb⟩ := a
    by_cases hd : faceDistance emb probe < bd
    · obtain ⟨rid, rd, heq, hle, hall, hdisj⟩ := ih eid (faceDistance emb probe)
      refine ⟨rid, rd, ?_, le_of_lt (lt_of_le_of_lt hle hd), ?_, ?_⟩
      · simpa [scanBest, hd] using heq
      · intro q hq
        rcases List.mem_cons.mp hq with h | h
        · subst h; exact hle
        · exact hall q h
      · rcases hdisj with ⟨h1, h2⟩ | ⟨l1, q, l2, hsplit, h1, h2, h3, h4⟩
        · refine Or.inr ⟨[], (eid, emb), rest, by simp, h1, by simpa using h2, ?_, ?_⟩
          · rw [h2]; exact hd
          · intro p hp; simp at hp
        · refine Or.inr ⟨(eid, emb) :: l1, q, l2, by simp [hsplit], h1, h2,
            lt_trans h3 hd, ?_⟩
          intro p hp
          rcases List.mem_cons.mp hp with h | h
          · subst h; exact h3
          · exact h4 p h
    · obtain ⟨rid, rd, heq, hle, hall, hdisj⟩ := ih bid bd
      refine ⟨rid, rd, ?_, hle, ?_, ?_⟩
      · simpa [scanBest, hd] using heq
      · intro q hq
        rcases List.mem_cons.mp hq with h | h
        · subst h; exact le_trans hle (not_lt.mp hd)
        · exact hall q h
      · rcases hdisj with ⟨h1, h2⟩ | ⟨l1, q, l2, hsplit, h1, h2, h3, h4⟩
        · exact Or.inl ⟨h1, h2⟩
        · refine Or.inr ⟨(eid, emb) :: l1, q, l2, by simp [hsplit], h1, h2, h3, ?_⟩
          intro p hp
          rcases List.mem_cons.mp hp with h | h
          · subst h; exact lt_of_lt_of_le h3 (not_lt.mp hd)
          · exact h4 p h

theorem scanBest_cons (probe : List ℝ) (eid : String) (emb : List ℝ)
    (rest : List (String × List ℝ)) :
    scanBest probe ((eid, emb) :: rest) none =
      scanBest probe rest (some (eid, faceDistance emb probe)) := rfl

/-- Characterisation of the whole scan on a non-empty catalog. -/
theorem scanBest_spec (probe : List ℝ) (e0 : String × List ℝ)
    (rest : List (String × List ℝ)) : ∃ rid rd,
      scanBest probe (e0 :: rest) none = some (rid, rd) ∧
      (∀ q ∈ e0 :: rest, rd ≤ faceDistance q.2 probe) ∧
      ∃ l1 emb l2, e0 :: rest = l1 ++ (rid, emb) :: l2 ∧
        rd = faceDistance emb probe ∧
        ∀ p ∈ l1, rd < faceDistance p.2 probe := by
  obtain ⟨eid, emb0⟩ := e0
  obtain ⟨rid, rd, heq, hle, hall, hdisj⟩ :=
    scanBest_acc_spec probe rest eid (faceDistance emb0 probe)
  refine ⟨rid, rd, by rw [scanBest_cons, heq], ?_, ?_⟩
  · intro q hq
    rcases List.mem_cons.mp hq with h | h
    · subst h; exact hle
    · exact hall q h
  · rcases hdisj with ⟨h1, h2⟩ | ⟨l1, q, l2, hsplit, h1, h2, h3, h4⟩
    · exact ⟨[], emb0, rest, by simp [h1], h2, by simp⟩
    · refine ⟨(eid, emb0) :: l1, q.2, l2, ?_, h2, ?_⟩
      · simp only [hsplit, h1, List.cons_append]
      · intro p hp
        rcases List.mem_cons.mp hp with h | h
        · subst h; exact h3
        · exact h4 p h

/-- C2: `match_face` computes the Euclidean distance from the probe to
every catalog embedding and selects the minimum; it accepts iff that
minimum is ≤ tolerance, returning `(identity, 1 - distance)`; ties go to
the earliest catalog entry (every strictly earlier entry is strictly
farther); an empty catalog yields `none`; a probe exactly equal to a
catalog embedding is accepted with confidence 1 whenever `0 ≤ tolerance`
(in particular at the default tolerance 0.6). -/
theorem C2_matcher_euclidean_min_contract (tolerance : ℝ) (probe : List ℝ) :
    (match_face tolerance probe [] = none) ∧
    (∀ catalog eid conf, match_face tolerance probe catalog = some (eid, conf) →
      ∃ l1 emb l2, catalog = l1 ++ (eid, emb) :: l2 ∧
        faceDistance emb probe ≤ tolerance ∧
        conf = 1 - faceDistance emb probe ∧
        (∀ q ∈ catalog, faceDistance emb probe ≤ faceDistance q.2 probe) ∧
        (∀ p ∈ l1, faceDistance emb probe < faceDistance p.2 probe)) ∧
    (∀ catalog, (∃ q ∈ catalog, faceDistance q.2 probe ≤ tolerance) →
      ∃ r, match_face tolerance probe catalog = some r) ∧
    (∀ catalog, (∀ q ∈ catalog, tolerance < faceDistance q.2 probe) →
      match_face tolerance probe catalog = none) ∧
    (0 ≤ tolerance → ∀ catalog eid₀, (eid₀, probe) ∈ catalog →
      ∃ eid, match_face tolerance probe catalog = some (eid, 1)) := by
  have hA : match_face tolerance probe [] = none := rfl
  have hB : ∀ catalog eid conf,
      match_face tolerance probe catalog = some (eid, conf) →
      ∃ l1 emb l2, catalog = l1 ++ (eid, emb) :: l2 ∧
        faceDistance emb probe ≤ tolerance ∧
        conf = 1 - faceDistance emb probe ∧
        (∀ q ∈ catalog, faceDistance emb probe ≤ faceDistance q.2 probe) ∧
        (∀ p ∈ l1, faceDistance emb probe < faceDistance p.2 probe) := by
    intro catalog eid conf h
    cases catalog with
    | nil => simp [match_face, scanBest] at h
    | cons e0 rest =>
      obtain ⟨rid, rd, heq, hmin, l1, emb, l2, hsplit, hrd, hpre⟩ :=
        scanBest_spec probe e0 rest
      unfold match_face at h
      rw [heq] at h
      change (if rd ≤ tolerance then some (rid, 1 - rd) else none)
        = some (eid, conf) at h
      by_cases htol : rd ≤ tolerance
      · rw [if_pos htol] at h
        simp only [Option.some.injEq, Prod.mk.injEq] at h
        obtain ⟨he, hc⟩ := h
        refine ⟨l1, emb, l2, by rw [← he]; exact hsplit, ?_, ?_, ?_, ?_⟩
        · rw [← hrd]; exact htol
        · rw [← hc, hrd]
        · intro q hq; rw [← hrd]; exact hmin q hq
        · intro p hp; rw [← hrd]; exact hpre p hp
      · rw [if_neg htol] at h
        exact absurd h (by simp)
  have hC : ∀ catalog,
      (∃ q ∈ catalog, faceDistance q.2 probe ≤ tolerance) →
      ∃ r, match_face tolerance probe catalog = some r := by
    intro catalog hq
    obtain ⟨q, hqmem, hqt⟩ := hq
    cases catalog with
    | nil => exact absurd hqmem (List.not_mem_nil q)
    | cons e0 rest =>
      obtain ⟨rid, rd, heq, hmin, _⟩ := scanBest_spec probe e0 rest
      refine ⟨(rid, 1 - rd), ?_⟩
      unfold match_face
      rw [heq]
      show (if rd ≤ tolerance then some (rid, 1 - rd) else none)
        = some (rid, 1 - rd)
      rw [if_pos (le_trans (hmin q hqmem) hqt)]
  have hD : ∀ catalog,
      (∀ q ∈ catalog, tolerance < faceDistance q.2 probe) →
      match_face tolerance probe catalog = none := by
    intro catalog hall
    cases catalog with
    | nil => rfl
    | cons e0 rest =>
      obtain ⟨rid, rd, heq, hmin, l1, emb, l2, hsplit, hrd, _⟩ :=
        scanBest_spec probe e0 rest
      have hmem : (rid, emb) ∈ e0 :: rest := by
        rw [hsplit]
        exact List.mem_append_right _ (List.mem_cons_self _ _)
      have : tolerance < rd := by
        rw [hrd]; exact hall (rid, emb) hmem
      unfold match_face
      rw [heq]
      show (if rd ≤ tolerance then some (rid, 1 - rd) else none) = none
      rw [if_neg (not_le.mpr this)]
  have hE : 0 ≤ tolerance → ∀ catalog eid₀, (eid₀, probe) ∈ catalog →
      ∃ eid, match_face tolerance probe catalog = some (eid, 1) := by
    intro ht catalog eid₀ hmem
    have hq : ∃ q ∈ catalog, faceDistance q.2 probe ≤ tolerance :=
      ⟨(eid₀, probe), hmem, by rw [show faceDistance probe probe = 0 from
        faceDistance_self probe]; exact ht⟩
    obtain ⟨⟨eid, conf⟩, hr⟩ := hC catalog hq
    obtain ⟨l1, emb, l2, _, _, hconf, hmin', _⟩ := hB catalog eid conf hr
    have h0 : faceDistance emb probe ≤ 0 := by
      have := hmin' (eid₀, probe) hmem
      rwa [faceDistance_self probe] at this
    have hconf1 : conf = 1 := by
      rw [hconf, le_antisymm h0 (faceDistance_nonneg emb probe)]
      ring
    exact ⟨eid, by rwa [hconf1] at hr⟩
  exact ⟨hA, hB, hC, hD, hE⟩

/-- Witness for C2: a probe equal to the single catalog embedding is
accepted with confidence 1 at the default tolerance 0.6. -/
theorem C2_matcher_euclidean_min_contract_witness :
    ∃ eid, match_face 0.6 [(0 : ℝ), 0] [("a", [0, 0])] = some (eid, 1) :=
  (C2_matcher_euclidean_min_contract 0.6 [(0 : ℝ), 0]).2.2.2.2
    (by norm_num) [("a", [0, 0])] "a" (List.mem_singleton.mpr rfl)

/-! ## Images and the liveness detector (`liveness_detector.py`)

Pixel values are idealised as reals; numpy arrays become lists of rows. -/

/-- A face crop handed to `check_liveness`: either a 3-channel RGB array
(`len(shape) == 3`) or a single-channel grayscale array. -/
inductive FaceImage where
  | rgb (data : List (List (ℝ × ℝ × ℝ)))
  | gray (data : List (List ℝ))

/-- A single-channel image as a list of rows. -/
abbrev GrayImage := List (List ℝ)

def grayHeight (g : GrayImage) : ℕ := g.length

def grayWidth (g : GrayImage) : ℕ := (g.headD []).length

/-- OpenCV `BORDER_REFLECT_101` index clamping (the default border of
`cv2.Laplacian`/`cv2.Sobel`) for offsets of at most one pixel. -/
def reflect101 (n : ℕ) (i : ℤ) : ℕ :=
  (if i < 0 then -i else if (n : ℤ) ≤ i then 2 * ((n : ℤ) - 1) - i else i).toNat

/-- Border-reflected pixel access. -/
def pxAt (g : GrayImage) (i j : ℤ) : ℝ :=
  (g.getD (reflect101 (grayHeight g) i) []).getD (reflect101 (grayWidth g) j) 0

/-- Model of `cv2.Laplacian(gray, CV_64F)`: 5-point stencil `[[0,1,0],[1,-4,1],[0,1,0]]`. -/
def laplacianM (g : GrayImage) : GrayImage :=
  (List.range (grayHeight g)).map fun i =>
    (List.range (grayWidth g)).map fun j =>
      pxAt g ((i : ℤ) - 1) (j : ℤ) + pxAt g ((i : ℤ) + 1) (j : ℤ) +
        pxAt g (i : ℤ) ((j : ℤ) - 1) + pxAt g (i : ℤ) ((j : ℤ) + 1) -
        4 * pxAt g (i : ℤ) (j : ℤ)

/-- Model of `cv2.Sobel(gray, CV_64F, 1, 0, ksize=3)`. -/
def sobelXM (g : GrayImage) : GrayImage :=
  (List.range (grayHeight g)).map fun i =>
    (List.range (grayWidth g)).map fun j =>
      (pxAt g ((i : ℤ) - 1) ((j : ℤ) + 1) + 2 * pxAt g (i : ℤ) ((j : ℤ) + 1) +
        pxAt g ((i : ℤ) + 1) ((j : ℤ) + 1)) -
      (pxAt g ((i : ℤ) - 1) ((j : ℤ) - 1) + 2 * pxAt g (i : ℤ) ((j : ℤ) - 1) +
        pxAt g ((i : ℤ) + 1) ((j : ℤ) - 1))

/-- Model of `cv2.Sobel(gray, CV_64F, 0, 1, ksize=3)`. -/
def sobelYM (g : GrayImage) : GrayImage :=
  (List.range (grayHeight g)).map fun i =>
    (List.range (grayWidth g)).map fun j =>
      (pxAt g ((i : ℤ) + 1) ((j : ℤ) - 1) + 2 * pxAt g ((i : ℤ) + 1) (j : ℤ) +
        pxAt g ((i : ℤ) + 1) ((j : ℤ) + 1)) -
      (pxAt g ((i : ℤ) - 1) ((j : ℤ) - 1) + 2 * pxAt g ((i : ℤ) - 1) (j : ℤ) +
        pxAt g ((i : ℤ) - 1) ((j : ℤ) + 1))

/-- numpy mean. -/
noncomputable def meanL (xs : List ℝ) : ℝ := xs.sum / xs.length

/-- numpy `var` (mean of squared deviations). -/
noncomputable def varianceL (xs : List ℝ) : ℝ :=
  meanL (xs.map fun x => (x - meanL xs) ^ 2)

/-- numpy `std`. -/
noncomputable def stdL (xs : List ℝ) : ℝ := Real.sqrt (varianceL xs)

noncomputable def varianceM (g : GrayImage) : ℝ := varianceL g.flatten

/-- Model of `cv2.cvtColor(..., COLOR_RGB2GRAY)` weights. -/
noncomputable def rgbToGray (d : List (List (ℝ × ℝ × ℝ))) : GrayImage :=
  d.map fun row => row.map fun p => 0.299 * p.1 + 0.587 * p.2.1 + 0.114 * p.2.2

/-- Model of `LivenessDetector._texture_analysis`. -/
noncomputable def texture_analysis (g : GrayImage) : ℝ :=
  min (varianceM (laplacianM g) / 180) 1

/-- Pointwise `sqrt(sobelx**2 + sobely**2)`. -/
noncomputable def gradientMagnitudeM (g : GrayImage) : GrayImage :=
  List.zipWith (fun rx ry => List.zipWith (fun x y => Real.sqrt (x ^ 2 + y ^ 2)) rx ry)
    (sobelXM g) (sobelYM g)

/-- Model of `LivenessDetector._blur_detection`. -/
noncomputable def blur_detection (g : GrayImage) : ℝ :=
  let sharpness := varianceM (laplacianM g)
  let gradientStd := stdL (gradientMagnitudeM g).flatten
  let sharpnessScore : ℝ := if 50 < sharpness ∧ sharpness < 500 then 1 else 0.3
  let gradientScore : ℝ := min (gradientStd / 25) 1
  (sharpnessScore + gradientScore) / 2

/-- Model of `LivenessDetector._reflection_detection`. -/
noncomputable def reflection_detection (img : FaceImage) : ℝ :=
  match img with
  | .gray _ => 0.5
  | .rgb d =>
    let gray := rgbToGray d
    let brightCount : ℕ := gray.flatten.countP fun x => decide ((240 : ℝ) < x)
    let totalPixels : ℕ := grayHeight gray * grayWidth gray
    let brightFrac : ℝ := (brightCount : ℝ) / (totalPixels : ℝ)
    let reflectionPenalty : ℝ :=
      if (0.05 : ℝ) < brightFrac then 0.3
      else if (0.02 : ℝ) < brightFrac then 0.6 else 1
    let contrast := stdL gray.flatten
    let contrastScore : ℝ := if 30 < contrast ∧ contrast < 60 then 1 else 0.5
    (reflectionPenalty + contrastScore) / 2

/-- Model of `np.fft.fft2`. -/
noncomputable def fft2 (g : GrayImage) : List (List ℂ) :=
  (List.range (grayHeight g)).map fun k =>
    (List.range (grayWidth g)).map fun l =>
      ((List.range (grayHeight g)).map fun m =>
        ((List.range (grayWidth g)).map fun n =>
          ((pxAt g (m : ℤ) (n : ℤ) : ℝ) : ℂ) *
            Complex.exp (-2 * Real.pi * Complex.I *
              ((k : ℂ) * (m : ℂ) / (grayHeight g : ℂ) +
               (l : ℂ) * (n : ℂ) / (grayWidth g : ℂ)))).sum).sum

/-- Model of `np.roll` by `s` positions (towards larger indices). -/
def rollList {α : Type} (s : ℕ) (l : List α) : List α :=
  l.rotate ((l.length - s % l.length) % l.length)

/-- Model of `np.abs(np.fft.fftshift(np.fft.fft2(gray)))`. -/
noncomputable def magnitudeSpectrum (g : GrayImage) : List (List ℝ) :=
  ((rollList (grayHeight g / 2) (fft2 g)).map (rollList (grayWidth g / 2))).map
    fun row => row.map Complex.abs

/-- Model of `magnitude_spectrum[0:10,:].sum() + magnitude_spectrum[-10:,:].sum()`. -/
noncomputable def edgeRegionSum (g : GrayImage) : ℝ :=
  ((magnitudeSpectrum g).take 10).flatten.sum +
    ((magnitudeSpectrum g).drop ((magnitudeSpectrum g).length - 10)).flatten.sum

/-- Model of `LivenessDetector._frequency_analysis`: high-frequency share of the
shifted spectrum, scored as `1 - min(ratio * 10, 1)`. -/
noncomputable def frequency_analysis (g : GrayImage) : ℝ :=
  1 - min (edgeRegionSum g / ((magnitudeSpectrum g).flatten.sum + 1e-6) * 10) 1

/-- Model of `cv2.calcHist` for one channel: 256 unit-width bins over `[0, 256)`. -/
noncomputable def calcHistChannel (xs : List ℝ) : List ℝ :=
  (List.range 256).map fun b =>
    ((xs.countP fun x => decide ((b : ℝ) ≤ x ∧ x < (b : ℝ) + 1)) : ℝ)

/-- The inner `entropy` helper of `_color_diversity_analysis`. -/
noncomputable def histEntropy (hist : List ℝ) : ℝ :=
  let norm := hist.map fun v => v / (hist.sum + 1e-6)
  Neg.neg (((norm.filter fun p => decide ((0 : ℝ) < p)).map
      fun p => p * Real.logb 2 p).sum)

/-- Model of `LivenessDetector._color_diversity_analysis`. -/
noncomputable def color_diversity_analysis (img : FaceImage) : ℝ :=
  match img with
  | .gray _ => 0.5
  | .rgb d =>
    let rEnt := histEntropy (calcHistChannel (d.flatten.map fun p => p.1))
    let gEnt := histEntropy (calcHistChannel (d.flatten.map fun p => p.2.1))
    let bEnt := histEntropy (calcHistChannel (d.flatten.map fun p => p.2.2))
    min (((rEnt + gEnt + bEnt) / 3) / 6) 1

/-- The grayscale conversion at the top of `check_liveness`'s `try` block;
`cv2.cvtColor` raises on an empty input array. -/
noncomputable def cvtColorToGray (img : FaceImage) : Except Unit GrayImage :=
  match img with
  | .rgb d => if d.isEmpty ∨ (d.headD []).isEmpty then .error () else .ok (rgbToGray d)
  | .gray g => .ok g

/-- The `try` block of `check_liveness`: grayscale conversion, the five
per-signal scores, their weighted combination, and the threshold verdict.
`cv2.Laplacian` raises on an empty grayscale input, so an empty crop makes
the block fail. -/
noncomputable def livenessTry (cfg : Settings) (img : FaceImage) :
    Except Unit (Bool × ℝ × String) :=
  match cvtColorToGray img with
  | .error e => .error e
  | .ok gray =>
    if gray.isEmpty ∨ (gray.headD []).isEmpty then .error () else
    let textureScore := texture_analysis gray
    let frequencyScore := frequency_analysis gray
    let colorScore := color_diversity_analysis img
    let blurScore := blur_detection gray
    let reflectionScore := reflection_detection img
    let combinedScore := textureScore * 0.25 + frequencyScore * 0.25 +
      colorScore * 0.20 + blurScore * 0.15 + reflectionScore * 0.15
    .ok (decide (cfg.LIVENESS_THRESHOLD < combinedScore), combinedScore,
      "multi_method")

/-- Model of `LivenessDetector.check_liveness`: returns `(is_live, confidence,
method)`; short-circuits to `(True, 1.0, "disabled")` when liveness is
globally disabled, and catches any exception of the scoring block,
failing open with `(True, 0.5, "error")`. -/
noncomputable def check_liveness (cfg : Settings) (img : FaceImage) :
    Bool × ℝ × String :=
  if cfg.ENABLE_LIVENESS = false then (true, 1, "disabled")
  else
    match livenessTry cfg img with
    | .ok r => r
    | .error _ => (true, 0.5, "error")

theorem livenessTry_method (cfg : Settings) (img : FaceImage)
    (r : Bool × ℝ × String) (h : livenessTry cfg img = .ok r) :
    r.2.2 = "multi_method" := by
  unfold livenessTry at h
  split at h
  · exact absurd h (by simp)
  · split at h
    · exact absurd h (by simp)
    · simp only [Except.ok.injEq] at h
      rw [← h]

/-- C7: `check_liveness` never raises: every crop produces one of the
three result shapes.  When liveness is globally disabled it returns
`(live, 1.0, "disabled")` irrespective of the crop, and when the scoring
block fails internally it fails open with `(live, 0.5, "error")`. -/
theorem C7_check_liveness_fails_open (cfg : Settings) (img : FaceImage) :
    (cfg.ENABLE_LIVENESS = false →
      check_liveness cfg img = (true, 1, "disabled")) ∧
    (cfg.ENABLE_LIVENESS = true → livenessTry cfg img = .error () →
      check_liveness cfg img = (true, 0.5, "error")) ∧
    (check_liveness cfg img = (true, 1, "disabled") ∨
     check_liveness cfg img = (true, 0.5, "error") ∨
     ∃ b s, check_liveness cfg img = (b, s, "multi_method")) := by
  refine ⟨?_, ?_, ?_⟩
  · intro h; unfold check_liveness; rw [if_pos h]
  · intro hon herr
    unfold check_liveness
    rw [if_neg (by simp [hon]), herr]
  · by_cases h : cfg.ENABLE_LIVENESS = false
    · exact Or.inl (by unfold check_liveness; rw [if_pos h])
    · rcases htry : livenessTry cfg img with e | r
      · refine Or.inr (Or.inl ?_)
        unfold check_liveness
        rw [if_neg h, htry]
      · refine Or.inr (Or.inr ⟨r.1, r.2.1, ?_⟩)
        have hm := livenessTry_method cfg img r htry
        unfold check_liveness
        rw [if_neg h, htry, show (r.1, r.2.1, "multi_method") = r by
          rw [← hm]]

/-- Witness for C7: liveness disabled yields `(live, 1.0, "disabled")` on a
concrete crop, and the empty crop (where `cv2.cvtColor` raises) yields the
fail-open `(live, 0.5, "error")`. -/
theorem C7_check_liveness_fails_open_witness :
    check_liveness { defaultSettings with ENABLE_LIVENESS := false }
        (FaceImage.gray [[1]]) = (true, 1, "disabled") ∧
    check_liveness defaultSettings (FaceImage.rgb []) = (true, 0.5, "error") :=
  ⟨(C7_check_liveness_fails_open _ _).1 rfl,
   (C7_check_liveness_fails_open _ _).2.1 rfl rfl⟩

/-- C9: the liveness scorer is a pure function of the crop and the
liveness configuration: two configurations agreeing on the enable flag and
the threshold give identical `(verdict, score, method)` on every crop, so
repeated runs on identical inputs always agree. -/
theorem C9_check_liveness_deterministic (cfg₁ cfg₂ : Settings)
    (hEnable : cfg₁.ENABLE_LIVENESS = cfg₂.ENABLE_LIVENESS)
    (hThr : cfg₁.LIVENESS_THRESHOLD = cfg₂.LIVENESS_THRESHOLD)
    (img : FaceImage) :
    check_liveness cfg₁ img = check_liveness cfg₂ img := by
  have htry : livenessTry cfg₁ img = livenessTry cfg₂ img := by
    unfold livenessTry
    rw [hThr]
  unfold check_liveness
  rw [hEnable, htry]

/-- Witness for C9: two configurations differing only in matcher fields
produce the same liveness result on a concrete crop. -/
theorem C9_check_liveness_deterministic_witness :
    check_liveness defaultSettings (FaceImage.gray [[1, 2], [3, 4]]) =
      check_liveness
        { defaultSettings with
            FACE_RECOGNITION_TOLERANCE := 0.4, MAX_FACES_PER_IMAGE := 3 }
        (FaceImage.gray [[1, 2], [3, 4]]) :=
  C9_check_liveness_deterministic _ _ rfl rfl _

/-! ## Polling attendance (`polling_attendance_service.py`)

`PollingAttendanceMonitor` state and its database effects.  Timestamps are
idealised reals (`time.time()` / `datetime.now()` taken at the acceptance
step of a pass); the JPEG byte decoding of a snapshot is absorbed into the
image/detector abstraction. -/

/-- A row of the `attendance_logs` table as created by
`PollingAttendanceMonitor._log_attendance`. -/
structure AttendanceRec where
  employeeId : String
  eventId : Option ℕ
  cameraId : String
  timestamp : ℝ
  status : String
  confidence : ℝ

/-- The database state visible to the polling monitor: employees with
embeddings, `EventParticipant` rows `(event_id, employee_id)`, and the
append-only attendance log. -/
structure PollingDB where
  employees : List String
  participants : List (ℕ × String)
  logs : List AttendanceRec

/-- In-memory state of one `PollingAttendanceMonitor`: its camera, the
loaded catalog, the per-identity `last_recognition` timestamps and the
30-second `recognition_cooldown`. -/
structure PollingMonitorState where
  cameraId : String
  known_faces : List (String × List ℝ)
  last_recognition : List (String × ℝ)
  recognition_cooldown : ℝ

/-- Model of `self.last_recognition.get(employee_id, 0)`. -/
def lastRecOf (l : List (String × ℝ)) (eid : String) : ℝ :=
  (List.lookup eid l).getD 0

/-- Model of `PollingAttendanceMonitor._log_attendance`: looks up the employee,
requires an `EventParticipant` row for the event, checks the cooldown, and
only then appends a `status='present'` attendance row and refreshes the
cooldown entry. -/
noncomputable def log_attendance (db : PollingDB) (mon : PollingMonitorState)
    (employeeId : String) (confidence : ℝ) (eventId : ℕ) (now : ℝ) :
    PollingDB × PollingMonitorState :=
  if employeeId ∉ db.employees then (db, mon)
  else if (eventId, employeeId) ∉ db.participants then (db, mon)
  else if now - lastRecOf mon.last_recognition employeeId <
      mon.recognition_cooldown then (db, mon)
  else
    ({ db with logs := db.logs ++
        [⟨employeeId, some eventId, mon.cameraId, now, "present", confidence⟩] },
     { mon with last_recognition := (employeeId, now) :: mon.last_recognition })

/-- A face found in a snapshot: its 128-d encoding together with the image
region it came from. -/
structure DetectedFace where
  encoding : List ℝ
  crop : FaceImage

/-- The `face_recognition` library's detection+encoding step, abstracted:
given a model, it yields the detected faces of an image. -/
abbrev Detector := DetectModel → FaceImage → List DetectedFace

/-- The two-tier detection of `_recognize_faces`: `hog` first, `cnn` only
when `hog` found nothing; the second component records which models were
invoked. -/
def pollingDetectT (detect : Detector) (img : FaceImage) :
    List DetectedFace × List DetectModel :=
  let l1 := detect .hog img
  if l1.isEmpty then (detect .cnn img, [.hog, .cnn]) else (l1, [.hog])

def pollingDetect (detect : Detector) (img : FaceImage) : List DetectedFace :=
  (pollingDetectT detect img).1

/-- Model of `np.argmin`: index of the first minimum; accumulator carries the next
index, the best index and best value so far. -/
noncomputable def argminAux : List ℝ → ℕ → ℕ → ℝ → ℕ
  | [], _, bi, _ => bi
  | x :: rest, i, bi, bv =>
      if x < bv then argminAux rest (i + 1) i x
      else argminAux rest (i + 1) bi bv

noncomputable def argminIdx : List ℝ → ℕ
  | [] => 0
  | x :: rest => argminAux rest 1 0 x

/-- The per-face matching of `_recognize_faces`: skip when no known faces,
else `fr.face_distance` against every catalog entry, `np.argmin`, and
accept when the best distance is within the hard-coded `tolerance=0.6` of
`fr.compare_faces`, with confidence `1 - distance`.  No liveness check
appears anywhere in this pass. -/
noncomputable def pollingMatchFace (known : List (String × List ℝ))
    (enc : List ℝ) : Option (String × ℝ) :=
  if known.isEmpty then none
  else
    let dists := known.map fun kv => faceDistance kv.2 enc
    let b := argminIdx dists
    let d := dists.getD b 0
    if d ≤ 0.6 then some ((known.map Prod.fst).getD b "", 1 - d) else none

/-- Model of `PollingAttendanceMonitor._recognize_faces` on a decoded snapshot:
two-tier detection, then per-face matching; returns `(employee_id,
confidence)` pairs. -/
noncomputable def recognize_faces (detect : Detector)
    (known : List (String × List ℝ)) (snapshot : FaceImage) :
    List (String × ℝ) :=
  (pollingDetect detect snapshot).filterMap fun f =>
    pollingMatchFace known f.encoding

/-- One snapshot round of `_polling_loop` when active events exist:
recognize faces, then `_log_attendance` for every recognized face in every
active event. -/
noncomputable def pollingProcessSnapshot (detect : Detector) (db : PollingDB)
    (mon : PollingMonitorState) (snapshot : FaceImage)
    (activeEvents : List ℕ) (now : ℝ) : PollingDB × PollingMonitorState :=
  (recognize_faces detect mon.known_faces snapshot).foldl
    (fun st rec => activeEvents.foldl
      (fun st2 ev => log_attendance st2.1 st2.2 rec.1 rec.2 ev now) st)
    (db, mon)

/-- One camera detection hitting one monitor of a fleet: which monitor
reacted, which identity it recognized, and when. -/
structure DetectionEvent where
  monIdx : ℕ
  employeeId : String
  confidence : ℝ
  eventId : ℕ
  time : ℝ

/-- Interleaved execution of several independently running polling
monitors against the shared database: each detection is handled by its
monitor's own `_log_attendance` with its own cooldown map. -/
noncomputable def runMonitors :
    PollingDB → List PollingMonitorState → List DetectionEvent →
      PollingDB × List PollingMonitorState
  | db, mons, [] => (db, mons)
  | db, mons, d :: rest =>
    match mons[d.monIdx]? with
    | none => runMonitors db mons rest
    | some mon =>
      let r := log_attendance db mon d.employeeId d.confidence d.eventId d.time
      runMonitors r.1 (mons.set d.monIdx r.2) rest

/-- Sequential execution of one polling monitor's detections (its loop is
single-threaded). -/
noncomputable def runMonitor :
    PollingDB → PollingMonitorState → List DetectionEvent →
      PollingDB × PollingMonitorState
  | db, mon, [] => (db, mon)
  | db, mon, d :: rest =>
    let r := log_attendance db mon d.employeeId d.confidence d.eventId d.time
    runMonitor r.1 r.2 rest

/-- C10: in polling mode an attendance row is written only when an
`EventParticipant` row links the employee to the event: with no such row,
`_log_attendance` leaves both the database and the monitor untouched, and
in general every row after a call is either an old row or belongs to a
linked participant. -/
theorem C10_participant_gate (db : PollingDB) (mon : PollingMonitorState)
    (employeeId : String) (confidence : ℝ) (eventId : ℕ) (now : ℝ) :
    ((eventId, employeeId) ∉ db.participants →
      log_attendance db mon employeeId confidence eventId now = (db, mon)) ∧
    (∀ r ∈ (log_attendance db mon employeeId confidence eventId now).1.logs,
      r ∈ db.logs ∨ (eventId, r.employeeId) ∈ db.participants) := by
  constructor
  · intro h
    unfold log_attendance
    by_cases h1 : employeeId ∉ db.employees
    · rw [if_pos h1]
    · rw [if_neg h1, if_pos h]
  · intro r hr
    unfold log_attendance at hr
    by_cases h1 : employeeId ∉ db.employees
    · rw [if_pos h1] at hr; exact Or.inl hr
    · rw [if_neg h1] at hr
      by_cases h2 : (eventId, employeeId) ∉ db.participants
      · rw [if_pos h2] at hr; exact Or.inl hr
      · rw [if_neg h2] at hr
        by_cases h3 : now - lastRecOf mon.last_recognition employeeId <
            mon.recognition_cooldown
        · rw [if_pos h3] at hr; exact Or.inl hr
        · rw [if_neg h3] at hr
          simp only [List.mem_append, List.mem_singleton] at hr
          rcases hr with h | h
          · exact Or.inl h
          · subst h; exact Or.inr (not_not.mp h2)

/-- Witness for C10: with an empty `EventParticipant` table, a recognized
employee produces no write. -/
theorem C10_participant_gate_witness :
    log_attendance ⟨["e1"], [], []⟩ ⟨"cam1", [], [], 30⟩ "e1" 1 5 100 =
      (⟨["e1"], [], []⟩, ⟨"cam1", [], [], 30⟩) :=
  (C10_participant_gate ⟨["e1"], [], []⟩ ⟨"cam1", [], [], 30⟩ "e1" 1 5 100).1
    (by simp)

theorem lastRecOf_cons (l : List (String × ℝ)) (k : String) (t : ℝ)
    (e : String) :
    lastRecOf ((k, t) :: l) e = if e = k then t else lastRecOf l e := by
  by_cases h : e = k
  · simp [lastRecOf, List.lookup, h]
  · simp [lastRecOf, List.lookup, h, beq_eq_false_iff_ne.mpr h]

/-- Model of `_log_attendance` either changes nothing, or (when the employee is
linked, the cooldown entry is stale) appends one `present` row stamped
`now` and refreshes the cooldown entry. -/
theorem log_attendance_cases (db : PollingDB) (mon : PollingMonitorState)
    (eid : String) (conf : ℝ) (ev : ℕ) (now : ℝ) :
    log_attendance db mon eid conf ev now = (db, mon) ∨
    (lastRecOf mon.last_recognition eid + mon.recognition_cooldown ≤ now ∧
      log_attendance db mon eid conf ev now =
        ({ db with logs := db.logs ++
            [⟨eid, some ev, mon.cameraId, now, "present", conf⟩] },
         { mon with last_recognition := (eid, now) :: mon.last_recognition })) := by
  unfold log_attendance
  by_cases h1 : eid ∉ db.employees
  · rw [if_pos h1]; exact Or.inl rfl
  · rw [if_neg h1]
    by_cases h2 : (ev, eid) ∉ db.participants
    · rw [if_pos h2]; exact Or.inl rfl
    · rw [if_neg h2]
      by_cases h3 : now - lastRecOf mon.last_recognition eid <
          mon.recognition_cooldown
      · rw [if_pos h3]; exact Or.inl rfl
      · rw [if_neg h3]
        refine Or.inr ⟨?_, rfl⟩
        linarith [not_lt.mp h3]

/-- Records separated by at least the cooldown window whenever they belong
to the same identity (in log order). -/
def cooldownSeparated (cw : ℝ) (logs : List AttendanceRec) : Prop :=
  logs.Pairwise fun r1 r2 =>
    r1.employeeId = r2.employeeId → r1.timestamp + cw ≤ r2.timestamp

/-- Cooldown invariant of a single monitor's sequential loop. -/
theorem runMonitor_cooldown_inv (cw : ℝ) (trace : List DetectionEvent) :
    ∀ (db : PollingDB) (mon : PollingMonitorState) (bound : ℝ),
      mon.recognition_cooldown = cw →
      cooldownSeparated cw db.logs →
      (∀ r ∈ db.logs, r.timestamp ≤ lastRecOf mon.last_recognition r.employeeId) →
      (∀ e, lastRecOf mon.last_recognition e ≤ bound) →
      (∀ d ∈ trace, bound ≤ d.time) →
      trace.Pairwise (fun d1 d2 => d1.time ≤ d2.time) →
      cooldownSeparated cw (runMonitor db mon trace).1.logs := by
  induction trace with
  | nil => intro db mon bound _ hsep _ _ _ _; exact hsep
  | cons d rest ih =>
    intro db mon bound hcw hsep hts hub htr hsorted
    have hdt : bound ≤ d.time := htr d (List.mem_cons_self _ _)
    have htr' : ∀ d' ∈ rest, d.time ≤ d'.time :=
      fun d' hd' => (List.pairwise_cons.mp hsorted).1 d' hd'
    have hsorted' := (List.pairwise_cons.mp hsorted).2
    rcases log_attendance_cases db mon d.employeeId d.confidence d.eventId
        d.time with hca | ⟨hstale, hca⟩
    · show cooldownSeparated cw
        (runMonitor (log_attendance db mon d.employeeId d.confidence
          d.eventId d.time).1
          (log_attendance db mon d.employeeId d.confidence d.eventId d.time).2
          rest).1.logs
      rw [hca]
      exact ih db mon bound hcw hsep hts hub
        (fun d' hd' => le_trans hdt (htr' d' hd')) hsorted'
    · show cooldownSeparated cw
        (runMonitor (log_attendance db mon d.employeeId d.confidence
          d.eventId d.time).1
          (log_attendance db mon d.employeeId d.confidence d.eventId d.time).2
          rest).1.logs
      rw [hca]
      refine ih _ _ d.time hcw ?_ ?_ ?_ htr' hsorted'
      · refine List.pairwise_append.mpr ⟨hsep, List.pairwise_singleton _ _, ?_⟩
        intro r1 hr1 r2 hr2 heid
        simp only [List.mem_singleton] at hr2
        subst hr2
        simp only at heid ⊢
        have h1 : r1.timestamp ≤ lastRecOf mon.last_recognition d.employeeId := by
          rw [← heid]; exact hts r1 hr1
        calc r1.timestamp + cw
            ≤ lastRecOf mon.last_recognition d.employeeId + cw := by linarith
          _ ≤ d.time := by rw [← hcw]; exact hstale
      · intro r hr
        simp only [List.mem_append, List.mem_singleton] at hr
        rcases hr with hr | hr
        · simp only [lastRecOf_cons]
          by_cases he : r.employeeId = d.employeeId
          · rw [if_pos he]
            exact le_trans (hts r hr) (le_trans (hub _) hdt)
          · rw [if_neg he]; exact hts r hr
        · subst hr
          simp [lastRecOf_cons]
      · intro e
        simp only [lastRecOf_cons]
        by_cases he : e = d.employeeId
        · rw [if_pos he]
        · rw [if_neg he]; exact le_trans (hub e) hdt

/-- C1 (amended): within a single running monitor, starting from a
fresh cooldown map and empty log, any sequence of detections handled in
time order yields a log in which two rows of the same identity are always
at least the 30-second cooldown apart.  (Across distinct monitors the
guarantee fails, see the counterexample: each monitor owns a private
`last_recognition` map.) -/
theorem C1_single_monitor_cooldown (db : PollingDB)
    (mon : PollingMonitorState) (trace : List DetectionEvent)
    (hcw : mon.recognition_cooldown = 30)
    (hdb : db.logs = [])
    (hmon : mon.last_recognition = [])
    (hpos : ∀ d ∈ trace, 0 ≤ d.time)
    (hsorted : trace.Pairwise (fun d1 d2 => d1.time ≤ d2.time)) :
    ((runMonitor db mon trace).1.logs).Pairwise
      (fun r1 r2 => r1.employeeId = r2.employeeId →
        r1.timestamp + 30 ≤ r2.timestamp) := by
  have h := runMonitor_cooldown_inv 30 trace db mon 0 hcw
    (by rw [hdb]; exact List.Pairwise.nil)
    (by rw [hdb]; intro r hr; exact absurd hr (List.not_mem_nil r))
    (by intro e; rw [hmon]; simp [lastRecOf, List.lookup])
    hpos hsorted
  exact h

/-- Witness for C1 (amended): a monitor seeing the same identity at t=100
and t=120 produces a cooldown-separated log. -/
theorem C1_single_monitor_cooldown_witness :
    ((runMonitor ⟨["e1"], [(1, "e1")], []⟩ ⟨"cam1", [], [], 30⟩
        [⟨0, "e1", 1, 1, 100⟩, ⟨0, "e1", 1, 1, 120⟩]).1.logs).Pairwise
      (fun r1 r2 => r1.employeeId = r2.employeeId →
        r1.timestamp + 30 ≤ r2.timestamp) := by
  refine C1_single_monitor_cooldown _ _ _ rfl rfl rfl ?_ ?_
  · intro d hd
    simp only [List.mem_cons, List.mem_singleton] at hd
    rcases hd with h | h | h
    · rw [h]; norm_num
    · rw [h]; norm_num
    · exact absurd h (List.not_mem_nil d)
  · refine List.pairwise_cons.mpr ⟨?_, List.pairwise_singleton _ _⟩
    intro d hd
    simp only [List.mem_singleton] at hd
    rw [hd]; norm_num

/-- Counterexample for **C1** as stated: two concurrently running camera
monitors (each with its own in-memory cooldown map) both accept the same
identity one second apart, so two accepted writes for one identity occur
well inside the 30-second window. -/
theorem C1_cross_monitor_counterexample :
    ((runMonitors ⟨["e1"], [(1, "e1")], []⟩
        [⟨"cam1", [], [], 30⟩, ⟨"cam2", [], [], 30⟩]
        [⟨0, "e1", 1, 1, 100⟩, ⟨1, "e1", 1, 1, 101⟩]).1.logs.map
          fun r => (r.employeeId, r.timestamp)) =
      [("e1", 100), ("e1", 101)] ∧ (101 : ℝ) - 100 < 30 := by
  constructor
  · have hacc1 : ¬((100 : ℝ) - lastRecOf [] "e1" < 30) := by
      simp [lastRecOf, List.lookup]; norm_num
    have hacc2 : ¬((101 : ℝ) - lastRecOf [] "e1" < 30) := by
      simp [lastRecOf, List.lookup]; norm_num
    simp [runMonitors, log_attendance, hacc1, hacc2]
  · norm_num

/-! ## Attendance status classification (`main.py`,
`calculate_attendance_status`)

Wall-clock times of day are seconds since midnight. -/

def workStartSec (cfg : Settings) : ℕ :=
  cfg.WORK_START_HOUR * 3600 + cfg.WORK_START_MIN * 60

def halfDayCutoffSec (cfg : Settings) : ℕ :=
  cfg.HALF_DAY_CUTOFF_HOUR * 3600 + cfg.HALF_DAY_CUTOFF_MIN * 60

/-- Model of `(datetime.combine(today, work_start) + timedelta(minutes=grace)).time()`:
the `.time()` projection wraps around midnight, hence the modulus. -/
def gracePeriodEndSec (cfg : Settings) : ℕ :=
  (workStartSec cfg + cfg.LATE_GRACE_PERIOD_MINUTES * 60) % 86400

/-- Model of `calculate_attendance_status`: classify a check-in time of day into
`on_time` / `late` / `half_day` with the accompanying notes (the float
hour formatting of the notes is abstracted to whole hours). -/
def calculate_attendance_status (cfg : Settings) (checkIn : ℕ) :
    String × Option String :=
  if checkIn ≤ gracePeriodEndSec cfg then ("on_time", none)
  else if checkIn ≤ halfDayCutoffSec cfg then
    ("late", some ("Late by " ++ toString ((checkIn - workStartSec cfg) / 60)
      ++ " minutes"))
  else
    ("half_day", some ("Arrived " ++
      toString ((checkIn - workStartSec cfg) / 3600) ++ " hours late (Half-day)"))

/-- C4 (amended): the HTTP-path classifier obeys the stated
boundaries — at or before work-start+grace ⇒ `on_time`, a second later and
up to the half-day cutoff ⇒ `late`, after the cutoff ⇒ `half_day` — for
every configuration whose grace window does not wrap midnight and whose
cutoff is not before the grace end; the polling monitor's accepted writes,
however, are never classified: they always carry status `present`. -/
theorem C4_status_boundaries (cfg : Settings) (t : ℕ)
    (hNoWrap : workStartSec cfg + cfg.LATE_GRACE_PERIOD_MINUTES * 60 < 86400)
    (hOrder : gracePeriodEndSec cfg ≤ halfDayCutoffSec cfg) :
    ((calculate_attendance_status cfg t).1 = "on_time" ↔
      t ≤ workStartSec cfg + cfg.LATE_GRACE_PERIOD_MINUTES * 60) ∧
    ((calculate_attendance_status cfg t).1 = "late" ↔
      workStartSec cfg + cfg.LATE_GRACE_PERIOD_MINUTES * 60 < t ∧
        t ≤ halfDayCutoffSec cfg) ∧
    ((calculate_attendance_status cfg t).1 = "half_day" ↔
      halfDayCutoffSec cfg < t) ∧
    (∀ db mon eid conf ev now,
      ∀ r ∈ (log_attendance db mon eid conf ev now).1.logs,
        r ∈ db.logs ∨ r.status = "present") := by
  have hg : gracePeriodEndSec cfg =
      workStartSec cfg + cfg.LATE_GRACE_PERIOD_MINUTES * 60 :=
    Nat.mod_eq_of_lt hNoWrap
  refine ⟨?_, ?_, ?_, ?_⟩
  · unfold calculate_attendance_status
    by_cases h1 : t ≤ gracePeriodEndSec cfg
    · rw [if_pos h1]; simpa using hg ▸ h1
    · rw [if_neg h1]
      by_cases h2 : t ≤ halfDayCutoffSec cfg
      · rw [if_pos h2]
        simp only []
        constructor
        · intro h; exact absurd h (by decide)
        · intro h; exact absurd h (hg ▸ h1)
      · rw [if_neg h2]
        simp only []
        constructor
        · intro h; exact absurd h (by decide)
        · intro h; exact absurd h (hg ▸ h1)
  · unfold calculate_attendance_status
    by_cases h1 : t ≤ gracePeriodEndSec cfg
    · rw [if_pos h1]
      simp only []
      constructor
      · intro h; exact absurd h (by decide)
      · rintro ⟨hlt, -⟩; exact absurd (hg ▸ h1) (not_le.mpr hlt)
    · rw [if_neg h1]
      by_cases h2 : t ≤ halfDayCutoffSec cfg
      · rw [if_pos h2]
        simp only []
        exact ⟨fun _ => ⟨hg ▸ not_le.mp h1, h2⟩, fun _ => trivial⟩
      · rw [if_neg h2]
        simp only []
        constructor
        · intro h; exact absurd h (by decide)
        · rintro ⟨-, hle⟩; exact absurd hle h2
  · unfold calculate_attendance_status
    by_cases h1 : t ≤ gracePeriodEndSec cfg
    · rw [if_pos h1]
      simp only []
      constructor
      · intro h; exact absurd h (by decide)
      · intro h
        exact absurd (le_trans (hg ▸ h1 : t ≤ _) (hg ▸ hOrder : _ ≤ halfDayCutoffSec cfg))
          (not_le.mpr h)
    · rw [if_neg h1]
      by_cases h2 : t ≤ halfDayCutoffSec cfg
      · rw [if_pos h2]
        simp only []
        constructor
        · intro h; exact absurd h (by decide)
        · intro h; exact absurd h2 (not_le.mpr h)
      · rw [if_neg h2]
        simp only []
        exact ⟨fun _ => not_le.mp h2, fun _ => trivial⟩
  · intro db mon eid conf ev now r hr
    rcases log_attendance_cases db mon eid conf ev now with hca | ⟨-, hca⟩
    · rw [hca] at hr; exact Or.inl hr
    · rw [hca] at hr
      simp only [List.mem_append, List.mem_singleton] at hr
      rcases hr with h | h
      · exact Or.inl h
      · subst h; exact Or.inr rfl

/-- Witness for C4 (amended): the documented boundary scenario at the
default configuration — 08:15:00 ⇒ on_time, 08:15:01 ⇒ late, 12:00:00 ⇒
late, 12:00:01 ⇒ half_day. -/
theorem C4_status_boundaries_witness :
    (calculate_attendance_status defaultSettings 29700).1 = "on_time" ∧
    (calculate_attendance_status defaultSettings 29701).1 = "late" ∧
    (calculate_attendance_status defaultSettings 43200).1 = "late" ∧
    (calculate_attendance_status defaultSettings 43201).1 = "half_day" :=
  ⟨(C4_status_boundaries defaultSettings 29700 (by decide) (by decide)).1.mpr
      (by decide),
   (C4_status_boundaries defaultSettings 29701 (by decide) (by decide)).2.1.mpr
      (by decide),
   (C4_status_boundaries defaultSettings 43200 (by decide) (by decide)).2.1.mpr
      (by decide),
   (C4_status_boundaries defaultSettings 43201 (by decide)
      (by decide)).2.2.1.mpr (by decide)⟩

/-- Counterexample for **C4** as stated: an accepted polling write (13:53:20,
well past the half-day cutoff) carries status `present`, not the
classification `half_day` demanded by the claim — the polling monitor
never consults `calculate_attendance_status`. -/
theorem C4_polling_status_counterexample :
    ((log_attendance ⟨["e1"], [(1, "e1")], []⟩ ⟨"cam1", [], [], 30⟩ "e1" 1 1
        50000).1.logs.map fun r => r.status) = ["present"] ∧
    (calculate_attendance_status defaultSettings 50000).1 = "half_day" ∧
    "present" ≠ "half_day" := by
  refine ⟨?_, by decide, by decide⟩
  have hacc : ¬((50000 : ℝ) - lastRecOf [] "e1" < 30) := by
    simp [lastRecOf, List.lookup]; norm_num
  simp [log_attendance, hacc]

/-! ## The event-driven HTTP recognition path (`face_processor.py`,
`process_image_for_recognition`; `main.py`, `detect_and_recognize`) -/

/-- One element of the `results` list built by
`process_image_for_recognition`. -/
structure FaceResult where
  name : String
  employeeId : String
  confidence : ℝ
  isLive : Bool
  livenessConfidence : ℝ

/-- The per-face body of `process_image_for_recognition`: liveness is
checked on the face crop, the face is matched, and the result row carries
either the employee's name or `"Unknown"`. -/
noncomputable def mkFaceResult (cfg : Settings)
    (catalog : List (String × String × List ℝ)) (f : DetectedFace) :
    FaceResult :=
  let live := check_liveness cfg f.crop
  match match_face cfg.FACE_RECOGNITION_TOLERANCE f.encoding
      (catalog.map fun c => (c.1, c.2.2)) with
  | some (eid, conf) =>
    ⟨((catalog.find? fun c => c.1 == eid).map fun c => c.2.1).getD "Unknown",
      eid, conf, live.1, live.2.1⟩
  | none => ⟨"Unknown", "", 0, live.1, live.2.1⟩

/-- Model of `FaceProcessor.process_image_for_recognition` after decoding and
detection: one result per detected face. -/
noncomputable def process_image_for_recognition (cfg : Settings)
    (catalog : List (String × String × List ℝ)) (faces : List DetectedFace) :
    List FaceResult :=
  faces.map (mkFaceResult cfg catalog)

/-- A row of `attendance_logs` as written by `detect_and_recognize`
(timestamps are epoch seconds). -/
structure MainAttendanceRec where
  employeeId : String
  timestamp : ℤ
  status : String
  notes : Option String
  eventId : Option String
  confidence : ℝ

/-- The body of the attendance-marking loop of `detect_and_recognize` for
one face: write only for a recognized (`name != 'Unknown'`) and live face
with no recent row inside the cooldown window, with the status classified
from the wall clock. -/
noncomputable def detectWriteStep (cfg : Settings) (now : ℤ)
    (eventId : Option String) (logs : List MainAttendanceRec)
    (face : FaceResult) : List MainAttendanceRec :=
  if face.name ≠ "Unknown" ∧ face.isLive = true then
    if (logs.filter fun r => decide (r.employeeId = face.employeeId ∧
        now - (cfg.ATTENDANCE_COOLDOWN_MINUTES : ℤ) * 60 < r.timestamp)).isEmpty
    then
      logs ++ [⟨face.employeeId, now,
        (calculate_attendance_status cfg ((now % 86400).toNat)).1,
        (calculate_attendance_status cfg ((now % 86400).toNat)).2,
        eventId, face.confidence⟩]
    else logs
  else logs

/-- The attendance-marking loop of `detect_and_recognize` over all faces
of one request (each write is committed before the next face is
examined). -/
noncomputable def detect_and_recognize_writes (cfg : Settings) (now : ℤ)
    (eventId : Option String) (logs : List MainAttendanceRec)
    (results : List FaceResult) : List MainAttendanceRec :=
  results.foldl (detectWriteStep cfg now eventId) logs

theorem detectWriteStep_mem (cfg : Settings) (now : ℤ)
    (eventId : Option String) (logs : List MainAttendanceRec)
    (face : FaceResult) (r : MainAttendanceRec)
    (hr : r ∈ detectWriteStep cfg now eventId logs face) :
    r ∈ logs ∨ (face.name ≠ "Unknown" ∧ face.isLive = true ∧
      r.employeeId = face.employeeId) := by
  unfold detectWriteStep at hr
  by_cases h1 : face.name ≠ "Unknown" ∧ face.isLive = true
  · rw [if_pos h1] at hr
    by_cases h2 : (logs.filter fun r => decide (r.employeeId = face.employeeId ∧
        now - (cfg.ATTENDANCE_COOLDOWN_MINUTES : ℤ) * 60 < r.timestamp)).isEmpty
    · rw [if_pos h2] at hr
      simp only [List.mem_append, List.mem_singleton] at hr
      rcases hr with h | h
      · exact Or.inl h
      · subst h; exact Or.inr ⟨h1.1, h1.2, rfl⟩
    · rw [if_neg h2] at hr; exact Or.inl hr
  · rw [if_neg h1] at hr; exact Or.inl hr

theorem detect_writes_mem (cfg : Settings) (now : ℤ)
    (eventId : Option String) (results : List FaceResult) :
    ∀ (logs : List MainAttendanceRec) (r : MainAttendanceRec),
      r ∈ detect_and_recognize_writes cfg now eventId logs results →
      r ∈ logs ∨ ∃ face ∈ results, face.name ≠ "Unknown" ∧
        face.isLive = true ∧ r.employeeId = face.employeeId := by
  induction results with
  | nil => intro logs r hr; exact Or.inl hr
  | cons face rest ih =>
    intro logs r hr
    rcases ih (detectWriteStep cfg now eventId logs face) r hr with h | ⟨f, hf, hprop⟩
    · rcases detectWriteStep_mem cfg now eventId logs face r h with h' | h'
      · exact Or.inl h'
      · exact Or.inr ⟨face, List.mem_cons_self _ _, h'⟩
    · exact Or.inr ⟨f, List.mem_cons_of_mem _ hf, hprop⟩

theorem log_attendance_logs_mem (db : PollingDB) (mon : PollingMonitorState)
    (eid : String) (conf : ℝ) (ev : ℕ) (now : ℝ) (r : AttendanceRec)
    (hr : r ∈ (log_attendance db mon eid conf ev now).1.logs) :
    r ∈ db.logs ∨ r.employeeId = eid := by
  rcases log_attendance_cases db mon eid conf ev now with hca | ⟨-, hca⟩
  · rw [hca] at hr; exact Or.inl hr
  · rw [hca] at hr
    simp only [List.mem_append, List.mem_singleton] at hr
    rcases hr with h | h
    · exact Or.inl h
    · subst h; exact Or.inr rfl

theorem foldl_events_logs_mem (eid : String) (conf : ℝ) (now : ℝ)
    (events : List ℕ) :
    ∀ (st : PollingDB × PollingMonitorState) (r : AttendanceRec),
      r ∈ (events.foldl
        (fun st2 ev => log_attendance st2.1 st2.2 eid conf ev now) st).1.logs →
      r ∈ st.1.logs ∨ r.employeeId = eid := by
  induction events with
  | nil => intro st r hr; exact Or.inl hr
  | cons ev rest ih =>
    intro st r hr
    rcases ih (log_attendance st.1 st.2 eid conf ev now) r hr with h | h
    · exact log_attendance_logs_mem st.1 st.2 eid conf ev now r h
    · exact Or.inr h

theorem foldl_recognized_logs_mem (now : ℝ) (events : List ℕ)
    (recs : List (String × ℝ)) :
    ∀ (st : PollingDB × PollingMonitorState) (r : AttendanceRec),
      r ∈ (recs.foldl (fun st rec => events.foldl
        (fun st2 ev => log_attendance st2.1 st2.2 rec.1 rec.2 ev now) st)
          st).1.logs →
      r ∈ st.1.logs ∨ r.employeeId ∈ recs.map Prod.fst := by
  induction recs with
  | nil => intro st r hr; exact Or.inl hr
  | cons rec rest ih =>
    intro st r hr
    rcases ih _ r hr with h | h
    · rcases foldl_events_logs_mem rec.1 rec.2 now events st r h with h' | h'
      · exact Or.inl h'
      · exact Or.inr (by rw [List.map_cons, h']; exact List.mem_cons_self _ _)
    · exact Or.inr (by rw [List.map_cons]; exact List.mem_cons_of_mem _ h)

/-- C3 (amended): unmatched faces are never written in either path,
and in the HTTP path liveness is scored per detection and gates every
write — a result is written only if it is matched (`name != 'Unknown'`)
and its liveness verdict is live, that verdict being exactly
`check_liveness` of the face's crop.  In the polling path every written
row belongs to a matched identity, but no liveness check exists there (see
the counterexample: a non-live matched face is written). -/
theorem C3_unmatched_nonlive_never_written (cfg : Settings) :
    (∀ (now : ℤ) (eventId : Option String) (logs : List MainAttendanceRec)
        (results : List FaceResult) (r : MainAttendanceRec),
      r ∈ detect_and_recognize_writes cfg now eventId logs results →
      r ∈ logs ∨ ∃ face ∈ results, face.name ≠ "Unknown" ∧
        face.isLive = true ∧ r.employeeId = face.employeeId) ∧
    (∀ (catalog : List (String × String × List ℝ)) (f : DetectedFace),
      (mkFaceResult cfg catalog f).isLive = (check_liveness cfg f.crop).1) ∧
    (∀ (detect : Detector) (db : PollingDB) (mon : PollingMonitorState)
        (snapshot : FaceImage) (events : List ℕ) (now : ℝ)
        (r : AttendanceRec),
      r ∈ (pollingProcessSnapshot detect db mon snapshot events now).1.logs →
      r ∈ db.logs ∨ r.employeeId ∈
        (recognize_faces detect mon.known_faces snapshot).map Prod.fst) := by
  refine ⟨?_, ?_, ?_⟩
  · intro now eventId logs results r hr
    exact detect_writes_mem cfg now eventId results logs r hr
  · intro catalog f
    unfold mkFaceResult
    rcases h : match_face cfg.FACE_RECOGNITION_TOLERANCE f.encoding
        (catalog.map fun c => (c.1, c.2.2)) with - | ⟨eid, conf⟩ <;> simp [h]
  · intro detect db mon snapshot events now r hr
    exact foldl_recognized_logs_mem now events
      (recognize_faces detect mon.known_faces snapshot) (db, mon) r hr

/-- Witness for C3 (amended): an unmatched face (empty catalog, hence
`name = "Unknown"`) produces no write in the HTTP path. -/
theorem C3_unmatched_nonlive_never_written_witness :
    detect_and_recognize_writes defaultSettings 1000 none []
      [⟨"Unknown", "", 0, true, 1⟩] = [] := by
  have h := (C3_unmatched_nonlive_never_written defaultSettings).1 1000 none []
    [⟨"Unknown", "", 0, true, 1⟩]
  rcases hres : detect_and_recognize_writes defaultSettings 1000 none []
      [⟨"Unknown", "", 0, true, 1⟩] with - | ⟨r, rest⟩
  · rfl
  · exfalso
    have hr := h r (by rw [hres]; exact List.mem_cons_self _ _)
    rcases hr with h' | ⟨face, hface, hname, -⟩
    · exact absurd h' (List.not_mem_nil r)
    · simp only [List.mem_singleton] at hface
      subst hface
      exact hname rfl

theorem magnitudeSpectrum_nonneg (g : GrayImage) :
    ∀ row ∈ magnitudeSpectrum g, ∀ x ∈ row, 0 ≤ x := by
  intro row hrow x hx
  unfold magnitudeSpectrum at hrow
  simp only [List.mem_map] at hrow
  obtain ⟨r, -, hr⟩ := hrow
  rw [← hr] at hx
  simp only [List.mem_map] at hx
  obtain ⟨z, -, hz⟩ := hx
  rw [← hz]
  exact AbsoluteValue.nonneg _ z

theorem flatten_sum_nonneg (m : List (List ℝ))
    (h : ∀ row ∈ m, ∀ x ∈ row, 0 ≤ x) : 0 ≤ m.flatten.sum := by
  refine List.sum_nonneg ?_
  intro x hx
  rw [List.mem_flatten] at hx
  obtain ⟨row, hrow, hxr⟩ := hx
  exact h row hrow x hxr

/-- The frequency score never exceeds 1 (the high-frequency share is a
quotient of sums of absolute values). -/
theorem frequency_analysis_le_one (g : GrayImage) :
    frequency_analysis g ≤ 1 := by
  unfold frequency_analysis
  have hm := magnitudeSpectrum_nonneg g
  have h1 : 0 ≤ ((magnitudeSpectrum g).take 10).flatten.sum :=
    flatten_sum_nonneg _ (fun row hrow => hm row (List.take_subset _ _ hrow))
  have h2 : 0 ≤ ((magnitudeSpectrum g).drop
      ((magnitudeSpectrum g).length - 10)).flatten.sum :=
    flatten_sum_nonneg _ (fun row hrow => hm row (List.drop_subset _ _ hrow))
  have h3 : 0 ≤ (magnitudeSpectrum g).flatten.sum := flatten_sum_nonneg _ hm
  have hX : 0 ≤ edgeRegionSum g /
      ((magnitudeSpectrum g).flatten.sum + 1e-6) * 10 := by
    refine mul_nonneg (div_nonneg ?_ ?_) (by norm_num)
    · unfold edgeRegionSum; linarith
    · have hpos : (0 : ℝ) < 1e-6 := by norm_num
      linarith
  have : (0 : ℝ) ≤ min (edgeRegionSum g /
      ((magnitudeSpectrum g).flatten.sum + 1e-6) * 10) 1 :=
    le_min hX (by norm_num)
  linarith

/-- The colour-diversity score never exceeds 1. -/
theorem color_diversity_le_one (img : FaceImage) :
    color_diversity_analysis img ≤ 1 := by
  cases img with
  | gray g => show (0.5 : ℝ) ≤ 1; norm_num
  | rgb d => exact min_le_right _ _

/-- A uniform dark-gray 2×2 crop: flat texture, zero gradients, no bright
pixels — its combined liveness score stays far below the 0.75 threshold. -/
noncomputable def spoofCropData : List (List (ℝ × ℝ × ℝ)) :=
  [[(100, 100, 100), (100, 100, 100)], [(100, 100, 100), (100, 100, 100)]]

noncomputable def spoofCrop : FaceImage := FaceImage.rgb spoofCropData

/-- The grayscale conversion of `spoofCrop`. -/
noncomputable def gray2 : GrayImage := [[100, 100], [100, 100]]

theorem rgbToGray_spoofCrop : rgbToGray spoofCropData = gray2 := by
  simp [rgbToGray, spoofCropData, gray2]
  norm_num

theorem pxAt_gray2 (i j : ℤ) (hi1 : -1 ≤ i) (hi2 : i ≤ 2) (hj1 : -1 ≤ j)
    (hj2 : j ≤ 2) : pxAt gray2 i j = 100 := by
  interval_cases i <;> interval_cases j <;> rfl

theorem laplacianM_gray2 : laplacianM gray2 = [[0, 0], [0, 0]] := by
  show [[pxAt gray2 (-1) 0 + pxAt gray2 1 0 + pxAt gray2 0 (-1) +
      pxAt gray2 0 1 - 4 * pxAt gray2 0 0, _], [_, _]] = _
  norm_num [pxAt_gray2]

theorem varianceM_zeros : varianceM [[(0 : ℝ), 0], [0, 0]] = 0 := by
  norm_num [varianceM, varianceL, meanL, List.flatten]

theorem texture_gray2 : texture_analysis gray2 = 0 := by
  unfold texture_analysis
  rw [laplacianM_gray2, varianceM_zeros]
  norm_num [min_def]

theorem sobelXM_gray2 : sobelXM gray2 = [[0, 0], [0, 0]] := by
  show [[pxAt gray2 (-1) 1 + 2 * pxAt gray2 0 1 + pxAt gray2 1 1 -
      (pxAt gray2 (-1) (-1) + 2 * pxAt gray2 0 (-1) + pxAt gray2 1 (-1)), _],
    [_, _]] = _
  norm_num [pxAt_gray2]

theorem sobelYM_gray2 : sobelYM gray2 = [[0, 0], [0, 0]] := by
  show [[pxAt gray2 1 (-1) + 2 * pxAt gray2 1 0 + pxAt gray2 1 1 -
      (pxAt gray2 (-1) (-1) + 2 * pxAt gray2 (-1) 0 + pxAt gray2 (-1) 1), _],
    [_, _]] = _
  norm_num [pxAt_gray2]

theorem gradientMagnitudeM_gray2 :
    gradientMagnitudeM gray2 = [[0, 0], [0, 0]] := by
  unfold gradientMagnitudeM
  rw [sobelXM_gray2, sobelYM_gray2]
  norm_num [List.zipWith]

theorem blur_gray2 : blur_detection gray2 = 0.15 := by
  have hstd : stdL ([[(0 : ℝ), 0], [0, 0]] : List (List ℝ)).flatten = 0 := by
    norm_num [stdL, varianceL, meanL, List.flatten, Real.sqrt_zero]
  unfold blur_detection
  rw [laplacianM_gray2, varianceM_zeros, gradientMagnitudeM_gray2, hstd]
  norm_num [min_def]

theorem reflection_spoofCrop : reflection_detection spoofCrop = 0.75 := by
  have hvar : varianceL gray2.flatten = 0 := by
    norm_num [gray2, varianceL, meanL, List.flatten]
  have hstd : stdL gray2.flatten = 0 := by
    rw [stdL, hvar, Real.sqrt_zero]
  show reflection_detection (FaceImage.rgb spoofCropData) = 0.75
  simp only [reflection_detection, rgbToGray_spoofCrop]
  rw [hstd]
  norm_num [gray2, grayHeight, grayWidth, List.countP_cons, List.countP_nil,
    List.flatten]

theorem cvtColorToGray_spoofCrop :
    cvtColorToGray spoofCrop = .ok gray2 := by
  simp [cvtColorToGray, spoofCrop, spoofCropData, rgbToGray_spoofCrop]
  rw [show rgbToGray [[((100 : ℝ), (100 : ℝ), (100 : ℝ)),
      (100, 100, 100)], [(100, 100, 100), (100, 100, 100)]] =
    rgbToGray spoofCropData from rfl, rgbToGray_spoofCrop]

theorem livenessTry_spoofCrop :
    livenessTry defaultSettings spoofCrop =
      .ok (decide (defaultSettings.LIVENESS_THRESHOLD <
          texture_analysis gray2 * 0.25 + frequency_analysis gray2 * 0.25 +
          color_diversity_analysis spoofCrop * 0.20 +
          blur_detection gray2 * 0.15 + reflection_detection spoofCrop * 0.15),
        texture_analysis gray2 * 0.25 + frequency_analysis gray2 * 0.25 +
          color_diversity_analysis spoofCrop * 0.20 +
          blur_detection gray2 * 0.15 + reflection_detection spoofCrop * 0.15,
        "multi_method") := by
  simp only [livenessTry, cvtColorToGray_spoofCrop]
  rw [if_neg (by simp [gray2])]

/-- The uniform crop's liveness verdict at the default configuration is
not live: its combined score is at most 0.585, below the 0.75 threshold. -/
theorem check_liveness_spoofCrop :
    (check_liveness defaultSettings spoofCrop).1 = false := by
  have hcomb : texture_analysis gray2 * 0.25 + frequency_analysis gray2 * 0.25 +
      color_diversity_analysis spoofCrop * 0.20 +
      blur_detection gray2 * 0.15 + reflection_detection spoofCrop * 0.15 ≤
        0.585 := by
    have h1 := frequency_analysis_le_one gray2
    have h2 := color_diversity_le_one spoofCrop
    rw [texture_gray2, blur_gray2, reflection_spoofCrop]
    linarith
  have hthr : ¬(defaultSettings.LIVENESS_THRESHOLD <
      texture_analysis gray2 * 0.25 + frequency_analysis gray2 * 0.25 +
      color_diversity_analysis spoofCrop * 0.20 +
      blur_detection gray2 * 0.15 + reflection_detection spoofCrop * 0.15) := by
    have hd : defaultSettings.LIVENESS_THRESHOLD = (0.75 : ℝ) := rfl
    rw [hd]
    intro h
    linarith
  simp only [check_liveness, livenessTry_spoofCrop]
  rw [if_neg (by simp [defaultSettings])]
  exact decide_eq_false hthr

/-- Counterexample for **C3** as stated: in the polling-driven mode no
liveness check exists.  A detected face whose crop's liveness verdict is
*not live* (`check_liveness` rejects it) but whose encoding matches a
known face is written as an AttendanceRecord by the polling pass. -/
theorem C3_polling_nonlive_written_counterexample :
    (check_liveness defaultSettings spoofCrop).1 = false ∧
    ((pollingProcessSnapshot (fun _ _ => [⟨[(0 : ℝ), 0], spoofCrop⟩])
        ⟨["e1"], [(1, "e1")], []⟩ ⟨"cam1", [("e1", [(0 : ℝ), 0])], [], 30⟩
        spoofCrop [1] 100).1.logs.map fun r => r.employeeId) = ["e1"] := by
  refine ⟨check_liveness_spoofCrop, ?_⟩
  have h0 : faceDistance [(0 : ℝ), 0] [0, 0] = 0 := faceDistance_self _
  have hmatch : pollingMatchFace [("e1", [(0 : ℝ), 0])] [0, 0] =
      some ("e1", 1) := by
    unfold pollingMatchFace
    rw [if_neg (by simp)]
    simp only [List.map, argminIdx, argminAux, List.getD_cons_zero, h0]
    norm_num
  have hrec : recognize_faces (fun _ _ => [⟨[(0 : ℝ), 0], spoofCrop⟩])
      [("e1", [(0 : ℝ), 0])] spoofCrop = [("e1", 1)] := by
    unfold recognize_faces pollingDetect pollingDetectT
    simp [hmatch]
  have hacc : ¬((100 : ℝ) - lastRecOf [] "e1" < 30) := by
    simp [lastRecOf, List.lookup]
    norm_num
  simp only [pollingProcessSnapshot]
  rw [hrec]
  simp only [List.foldl]
  simp [log_attendance, hacc]

/-! ## Detection tiers (`face_processor.py`, `FaceProcessor.detect_faces`;
`camera_monitoring_service.py`, `_recognize_and_log_attendance`) -/

/-- Model of `FaceProcessor.detect_faces`: one `face_locations` call with the
configured model — no accurate-mode retry — capped at
`MAX_FACES_PER_IMAGE`; the second component records the models invoked. -/
def detect_faces (cfg : Settings) (detect : Detector) (img : FaceImage) :
    List DetectedFace × List DetectModel :=
  let ls := detect cfg.FACE_DETECTION_MODEL img
  if ls.isEmpty then ([], [cfg.FACE_DETECTION_MODEL])
  else (ls.take cfg.MAX_FACES_PER_IMAGE, [cfg.FACE_DETECTION_MODEL])

/-- The detection step of `CameraMonitor._recognize_and_log_attendance`:
a single `hog` call, never `cnn`. -/
def cameraMonitorDetect (detect : Detector) (img : FaceImage) :
    List DetectedFace × List DetectModel :=
  (detect .hog img, [DetectModel.hog])

/-- C5 (amended): only the polling monitor implements the two-tier
retry — `hog` first, `cnn` exactly when `hog` found nothing, and `cnn` is
never invoked when `hog` found a face.  `FaceProcessor.detect_faces` runs
a single pass with the configured model and the event-driven CameraMonitor
a single `hog` pass; neither ever retries in accurate mode. -/
theorem C5_two_tier_retry (detect : Detector) (img : FaceImage)
    (cfg : Settings) :
    (¬(detect .hog img).isEmpty = true →
      pollingDetectT detect img = (detect .hog img, [DetectModel.hog])) ∧
    ((detect .hog img).isEmpty = true →
      pollingDetectT detect img =
        (detect .cnn img, [DetectModel.hog, DetectModel.cnn])) ∧
    ((detect_faces cfg detect img).2 = [cfg.FACE_DETECTION_MODEL]) ∧
    ((cameraMonitorDetect detect img).2 = [DetectModel.hog]) := by
  refine ⟨?_, ?_, ?_, rfl⟩
  · intro h
    unfold pollingDetectT
    rw [if_neg h]
  · intro h
    unfold pollingDetectT
    rw [if_pos h]
  · unfold detect_faces
    by_cases h : (detect cfg.FACE_DETECTION_MODEL img).isEmpty = true
    · rw [if_pos h]
    · rw [if_neg h]

/-- Witness for C5 (amended): a detector finding nothing in fast mode
makes the polling pass fall back to `cnn`, having invoked both tiers. -/
theorem C5_two_tier_retry_witness :
    pollingDetectT (fun m _ => match m with
      | .hog => []
      | .cnn => [⟨[], FaceImage.gray []⟩]) (FaceImage.gray []) =
      ([⟨[], FaceImage.gray []⟩], [DetectModel.hog, DetectModel.cnn]) :=
  (C5_two_tier_retry (fun m _ => match m with
      | .hog => []
      | .cnn => [⟨[], FaceImage.gray []⟩]) (FaceImage.gray [])
    defaultSettings).2.1 rfl

/-- Counterexample for **C5** as stated: with the default (hog) model and
a snapshot where fast mode returns zero detections,
`FaceProcessor.detect_faces` gives up without ever invoking `cnn` — the
claimed accurate-mode retry does not exist in this recognition pass. -/
theorem C5_no_retry_counterexample :
    (fun (_ : DetectModel) (_ : FaceImage) => ([] : List DetectedFace))
        DetectModel.hog (FaceImage.gray []) = [] ∧
    (detect_faces defaultSettings (fun _ _ => []) (FaceImage.gray [])).2 =
      [DetectModel.hog] ∧
    DetectModel.cnn ∉
      (detect_faces defaultSettings (fun _ _ => []) (FaceImage.gray [])).2 := by
  have h2 : (detect_faces defaultSettings (fun _ _ => [])
      (FaceImage.gray [])).2 = [DetectModel.hog] := rfl
  exact ⟨rfl, h2, by rw [h2]; decide⟩

/-! ## Catalog loading (`camera_monitoring_service.py` and
`polling_attendance_service.py`, `_load_known_faces`) -/

/-- A stored `Employee.embeddings` column value: SQL NULL, a JSON list
(whose elements may fail float decoding: `none` = non-numeric), or a
binary blob of floats. -/
inductive StoredEmbedding where
  | absent
  | jsonList (xs : List (Option ℚ))
  | blob (xs : List ℚ)

/-- Model of `np.array(list, dtype=np.float64)`: succeeds iff every element is
numeric, else raises. -/
def decodeFloats : List (Option ℚ) → Option (List ℚ)
  | [] => some []
  | none :: _ => none
  | some x :: rest => (decodeFloats rest).map (x :: ·)

/-- Model of `CameraMonitor._load_known_faces`: the query drops NULL embeddings;
each remaining entry is decoded (list → `np.array`, else `np.frombuffer`)
inside a per-entry `try` that skips failures, and is kept only when it has
exactly 128 dimensions. -/
def camera_load_known_faces :
    List (String × StoredEmbedding) → List (String × List ℚ)
  | [] => []
  | (_, .absent) :: rest => camera_load_known_faces rest
  | (eid, .jsonList xs) :: rest =>
    match decodeFloats xs with
    | none => camera_load_known_faces rest
    | some v =>
      if v.length = 128 then (eid, v) :: camera_load_known_faces rest
      else camera_load_known_faces rest
  | (eid, .blob xs) :: rest =>
    if xs.length = 128 then (eid, xs) :: camera_load_known_faces rest
    else camera_load_known_faces rest

/-- Model of `PollingAttendanceMonitor._load_known_faces`: keeps any non-empty JSON
list that decodes, with no length check; a decode failure propagates out
of the loader (so `start` fails); blobs, NULLs and empty lists are skipped
by the `if emp.embeddings and isinstance(emp.embeddings, list)` guard. -/
def polling_load_known_faces :
    List (String × StoredEmbedding) → Except Unit (List (String × List ℚ))
  | [] => .ok []
  | (eid, .jsonList (x :: xs)) :: rest =>
    match decodeFloats (x :: xs) with
    | none => .error ()
    | some v => (polling_load_known_faces rest).map ((eid, v) :: ·)
  | (_, _) :: rest => polling_load_known_faces rest

theorem camera_load_skip_json (eid : String) (xs : List (Option ℚ))
    (rest : List (String × StoredEmbedding))
    (hdec : decodeFloats xs = none) :
    camera_load_known_faces ((eid, .jsonList xs) :: rest) =
      camera_load_known_faces rest := by
  simp only [camera_load_known_faces, hdec]

theorem camera_load_json (eid : String) (xs : List (Option ℚ)) (v : List ℚ)
    (rest : List (String × StoredEmbedding))
    (hdec : decodeFloats xs = some v) :
    camera_load_known_faces ((eid, .jsonList xs) :: rest) =
      if v.length = 128 then (eid, v) :: camera_load_known_faces rest
      else camera_load_known_faces rest := by
  simp only [camera_load_known_faces, hdec]

theorem camera_load_blob (eid : String) (xs : List ℚ)
    (rest : List (String × StoredEmbedding)) :
    camera_load_known_faces ((eid, .blob xs) :: rest) =
      if xs.length = 128 then (eid, xs) :: camera_load_known_faces rest
      else camera_load_known_faces rest := by
  simp only [camera_load_known_faces]

theorem polling_load_json_ok (eid : String) (x : Option ℚ)
    (xs : List (Option ℚ)) (v : List ℚ)
    (rest : List (String × StoredEmbedding))
    (hdec : decodeFloats (x :: xs) = some v) :
    polling_load_known_faces ((eid, .jsonList (x :: xs)) :: rest) =
      (polling_load_known_faces rest).map ((eid, v) :: ·) := by
  simp only [polling_load_known_faces, hdec]

theorem polling_load_json_err (eid : String) (x : Option ℚ)
    (xs : List (Option ℚ)) (rest : List (String × StoredEmbedding))
    (hdec : decodeFloats (x :: xs) = none) :
    polling_load_known_faces ((eid, .jsonList (x :: xs)) :: rest) =
      .error () := by
  simp only [polling_load_known_faces, hdec]

/-- C6 (amended): the event-driven CameraMonitor's loader keeps only
128-element vectors and skips malformed entries without failing; the
polling monitor's loader performs no length check — it keeps any
non-empty decodable JSON list as-is — and an undecodable entry aborts its
whole load. -/
theorem C6_catalog_load (db : List (String × StoredEmbedding)) :
    (∀ p ∈ camera_load_known_faces db, p.2.length = 128) ∧
    (∀ eid xs rest, decodeFloats xs = none →
      camera_load_known_faces ((eid, .jsonList xs) :: rest) =
        camera_load_known_faces rest) ∧
    (∀ eid x xs v rest, decodeFloats (x :: xs) = some v →
      polling_load_known_faces ((eid, .jsonList (x :: xs)) :: rest) =
        (polling_load_known_faces rest).map ((eid, v) :: ·)) ∧
    (∀ eid x xs rest, decodeFloats (x :: xs) = none →
      polling_load_known_faces ((eid, .jsonList (x :: xs)) :: rest) =
        .error ()) := by
  refine ⟨?_, camera_load_skip_json, polling_load_json_ok,
    polling_load_json_err⟩
  induction db with
  | nil => intro p hp; exact absurd hp (List.not_mem_nil p)
  | cons e rest ih =>
    obtain ⟨eid, v⟩ := e
    intro p hp
    cases v with
    | absent => exact ih p hp
    | jsonList xs =>
      rcases hdec : decodeFloats xs with - | v
      · rw [camera_load_skip_json eid xs rest hdec] at hp
        exact ih p hp
      · rw [camera_load_json eid xs v rest hdec] at hp
        by_cases hlen : v.length = 128
        · rw [if_pos hlen] at hp
          rcases List.mem_cons.mp hp with h | h
          · subst h; exact hlen
          · exact ih p h
        · rw [if_neg hlen] at hp
          exact ih p hp
    | blob xs =>
      rw [camera_load_blob eid xs rest] at hp
      by_cases hlen : xs.length = 128
      · rw [if_pos hlen] at hp
        rcases List.mem_cons.mp hp with h | h
        · subst h; exact hlen
        · exact ih p h
      · rw [if_neg hlen] at hp
        exact ih p hp

/-- Witness for C6 (amended): a short JSON entry is skipped by the camera
loader while a 128-float blob is kept, and a non-numeric element aborts
the polling loader. -/
theorem C6_catalog_load_witness :
    (∀ p ∈ camera_load_known_faces
        [("e1", .jsonList [some 1]), ("e2", .blob (List.replicate 128 0))],
      p.2.length = 128) ∧
    polling_load_known_faces [("e1", .jsonList [some 1, none])] =
      .error () :=
  ⟨(C6_catalog_load _).1,
   (C6_catalog_load []).2.2.2 "e1" (some 1) [none] [] rfl⟩

/-- Counterexample for **C6** as stated: the polling loader keeps a
3-element embedding, so a wrong-length catalog entry enters the in-memory
known-faces catalog. -/
theorem C6_polling_wrong_length_counterexample :
    polling_load_known_faces [("e1", .jsonList [some 1, some 2, some 3])] =
      .ok [("e1", [1, 2, 3])] ∧ ([1, 2, 3] : List ℚ).length ≠ 128 :=
  ⟨rfl, by decide⟩

/-! ## The monitoring registry (`camera_monitoring_service.py`,
`CameraMonitoringService`)

All map mutations happen under `self.lock`, so the registry's evolution is
a sequence of atomic start/stop steps on the `monitors` dict (modelled as
an association list). -/

/-- The registry's view of one `CameraMonitor`. -/
structure RegMonitor where
  cameraName : String
  is_running : Bool

/-- Model of `CameraMonitoringService.start_camera_monitoring`: under the lock — if
the id is already registered, return `True` without touching the map; else
create a monitor and register it only when its `start()` succeeded
(`startOk`). -/
def start_camera_monitoring (monitors : List (String × RegMonitor))
    (cameraId cameraName : String) (startOk : Bool) :
    List (String × RegMonitor) × Bool :=
  if (monitors.lookup cameraId).isSome then (monitors, true)
  else if startOk then (monitors ++ [(cameraId, ⟨cameraName, true⟩)], true)
  else (monitors, false)

/-- Model of `CameraMonitoringService.stop_camera_monitoring`: removes the id when
present. -/
def stop_camera_monitoring (monitors : List (String × RegMonitor))
    (cameraId : String) : List (String × RegMonitor) :=
  if (monitors.lookup cameraId).isSome then
    monitors.filter fun p => !(p.1 == cameraId)
  else monitors

/-- Number of registered monitors for one camera id. -/
def monitorCount (monitors : List (String × RegMonitor))
    (cameraId : String) : ℕ :=
  (monitors.filter fun p => p.1 == cameraId).length

theorem monitorCount_eq_zero_iff (monitors : List (String × RegMonitor))
    (cameraId : String) :
    monitorCount monitors cameraId = 0 ↔
      monitors.lookup cameraId = none := by
  induction monitors with
  | nil => simp [monitorCount, List.lookup]
  | cons e rest ih =>
    obtain ⟨k, m⟩ := e
    by_cases h : k = cameraId
    · subst h
      simp [monitorCount, List.filter, List.lookup]
    · simp only [monitorCount, List.filter, List.lookup,
        beq_eq_false_iff_ne.mpr h, beq_eq_false_iff_ne.mpr (Ne.symm h)]
      exact ih

theorem monitorCount_append (l1 l2 : List (String × RegMonitor))
    (cameraId : String) :
    monitorCount (l1 ++ l2) cameraId =
      monitorCount l1 cameraId + monitorCount l2 cameraId := by
  simp [monitorCount, List.filter_append]

theorem lookup_append_of_none {β : Type} (l1 l2 : List (String × β))
    (k : String) (h : l1.lookup k = none) :
    (l1 ++ l2).lookup k = l2.lookup k := by
  induction l1 with
  | nil => rfl
  | cons e rest ih =>
    obtain ⟨k', v⟩ := e
    by_cases hk : k = k'
    · subst hk
      simp [List.lookup] at h
    · simp only [List.lookup, beq_eq_false_iff_ne.mpr hk, List.cons_append] at h ⊢
      exact ih h

/-- C8: registry start is idempotent — two calls for the same camera id
starting from a registry without it leave exactly one monitor registered —
and both start and stop preserve the at-most-one-monitor-per-id
invariant. -/
theorem C8_registry_start_idempotent
    (monitors : List (String × RegMonitor)) (cameraId cameraName : String)
    (ok2 : Bool) :
    (monitorCount monitors cameraId = 0 →
      monitorCount (start_camera_monitoring
        (start_camera_monitoring monitors cameraId cameraName true).1
        cameraId cameraName ok2).1 cameraId = 1) ∧
    ((∀ cid, monitorCount monitors cid ≤ 1) → ∀ cid cname ok cid',
      monitorCount (start_camera_monitoring monitors cid cname ok).1 cid' ≤ 1) ∧
    ((∀ cid, monitorCount monitors cid ≤ 1) → ∀ cid cid',
      monitorCount (stop_camera_monitoring monitors cid) cid' ≤ 1) := by
  refine ⟨?_, ?_, ?_⟩
  · intro h0
    have hnone : monitors.lookup cameraId = none :=
      (monitorCount_eq_zero_iff monitors cameraId).mp h0
    have hstep1 : (start_camera_monitoring monitors cameraId cameraName true).1 =
        monitors ++ [(cameraId, ⟨cameraName, true⟩)] := by
      unfold start_camera_monitoring
      rw [hnone]
      rfl
    have hlook2 : (monitors ++
        [(cameraId, (⟨cameraName, true⟩ : RegMonitor))]).lookup cameraId =
          some ⟨cameraName, true⟩ := by
      rw [lookup_append_of_none monitors _ cameraId hnone]
      simp [List.lookup]
    have hstep2 : (start_camera_monitoring
        (monitors ++ [(cameraId, ⟨cameraName, true⟩)]) cameraId cameraName
          ok2).1 = monitors ++ [(cameraId, ⟨cameraName, true⟩)] := by
      unfold start_camera_monitoring
      rw [hlook2]
      rfl
    rw [hstep1, hstep2, monitorCount_append, h0]
    simp [monitorCount, List.filter]
  · intro hinv cid cname ok cid'
    unfold start_camera_monitoring
    by_cases h1 : (monitors.lookup cid).isSome = true
    · rw [if_pos h1]; exact hinv cid'
    · rw [if_neg h1]
      cases ok with
      | false => exact hinv cid'
      | true =>
        show monitorCount (monitors ++ [(cid, ⟨cname, true⟩)]) cid' ≤ 1
        rw [monitorCount_append]
        by_cases h2 : cid = cid'
        · subst h2
          have hz : monitorCount monitors cid = 0 :=
            (monitorCount_eq_zero_iff monitors cid).mpr
              (Option.not_isSome_iff_eq_none.mp h1)
          rw [hz]
          simp [monitorCount, List.filter]
        · have : monitorCount [(cid, (⟨cname, true⟩ : RegMonitor))] cid' = 0 := by
            simp [monitorCount, List.filter, beq_eq_false_iff_ne.mpr h2]
          rw [this]
          simpa using hinv cid'
  · intro hinv cid cid'
    unfold stop_camera_monitoring
    by_cases h1 : (monitors.lookup cid).isSome = true
    · rw [if_pos h1]
      calc monitorCount (monitors.filter fun p => !(p.1 == cid)) cid'
          ≤ monitorCount monitors cid' :=
            List.Sublist.length_le
              (List.Sublist.filter _ (List.filter_sublist monitors))
        _ ≤ 1 := hinv cid'
    · rw [if_neg h1]; exact hinv cid'

/-- Witness for C8: starting the same camera twice on an empty registry
registers exactly one monitor. -/
theorem C8_registry_start_idempotent_witness :
    monitorCount (start_camera_monitoring
      (start_camera_monitoring [] "cam1" "Door camera" true).1
      "cam1" "Door camera" true).1 "cam1" = 1 :=
  (C8_registry_start_idempotent [] "cam1" "Door camera" true).1 rfl

end FaceAttendance
